import Mathlib

/-!
# Verification of the rust-bitcoin network message envelope layer

A shallow embedding of `src/network/message.rs`: the `CommandString`
command-tag codec, the `NetworkMessage` variant set, and the
`RawNetworkMessage` envelope encoder/decoder, together with the external
collaborators they call (integer codecs, the `CheckedData` framing
primitive, the domain payload codecs), which are modelled from the spec
because their sources are outside the provided tree.

Bytes are modelled as `Nat` (each meaningful byte is `< 256` by
construction where it matters).  Rust `String` values are modelled as
their list of character code points (`List Nat`); `String::as_bytes` is
the UTF-8 encoding of that list.  The unchecked 12-byte
`copy_nonoverlapping` in `CommandString::consensus_encode` copies past
the end of a short name's buffer, so the encoder takes an oracle
`junk : Nat → Nat` giving the bytes that sit in memory after the name's
buffer; `junk i` is the `i`-th byte read out of bounds.  A panic
(`unwrap` on an `Err`) is modelled as `Option.none`.
-/

/-- Modelled from the spec: the error kinds of §7 (`util::Error` and
`propagate_err` are outside the provided tree). `truncated` is "not
enough bytes for a fixed-size field", `badChecksum` comes from the
framing primitive, `unrecognizedCommand` carries the decoded name that
was absent from the dispatch table, and `payloadDecode` carries the
command name whose payload failed together with the underlying cause. -/
inductive Err where
  | truncated : Err
  | badChecksum : Err
  | unrecognizedCommand : List Nat → Err
  | payloadDecode : List Nat → Err → Err

/-- Modelled from the spec: a `SimpleDecoder` reading `n` raw bytes from
the front of the input, failing with `Truncated` when fewer remain. -/
def readBytes (n : Nat) (input : List Nat) : Except Err (List Nat × List Nat) :=
  if n ≤ input.length then .ok (input.take n, input.drop n) else .error .truncated

/-- Modelled from the spec: little-endian byte serialization of an
unsigned integer into `w` bytes (§6: all integers little-endian). -/
def leBytes : Nat → Nat → List Nat
  | 0, _ => []
  | w + 1, x => x % 256 :: leBytes w (x / 256)

/-- Modelled from the spec: little-endian interpretation of a byte list
as an unsigned integer. -/
def leNat : List Nat → Nat
  | [] => 0
  | b :: bs => b + 256 * leNat bs

/-- UTF-8 encoding of one character code point; this is what one
character of a Rust `String` contributes to `String::as_bytes`. -/
def utf8Char (c : Nat) : List Nat :=
  if c < 0x80 then [c]
  else if c < 0x800 then [0xC0 + c / 0x40, 0x80 + c % 0x40]
  else if c < 0x10000 then [0xE0 + c / 0x1000, 0x80 + c / 0x40 % 0x40, 0x80 + c % 0x40]
  else [0xF0 + c / 0x40000, 0x80 + c / 0x1000 % 0x40, 0x80 + c / 0x40 % 0x40, 0x80 + c % 0x40]

/-- The bytes of a Rust `String` whose characters are `s`
(`String::as_bytes`, i.e. the concatenated UTF-8 encodings). -/
def strBytes (s : List Nat) : List Nat := s.flatMap utf8Char

/-- The character code points of a Lean string literal; used to write
the Rust string literals of the source (`"version"`, …). -/
def strChars (s : String) : List Nat := s.toList.map Char.toNat

namespace CommandString

/-- `CommandString::consensus_encode`: builds the 12-byte tag with
`copy_nonoverlapping(inner_str.as_bytes().as_ptr(), rawbytes.as_mut_ptr(),
mem::size_of::<[u8; 12]>())`, i.e. it always copies 12 bytes starting at
the string's buffer, regardless of the string's length.  Byte `i` of the
result is byte `i` of the string when `i` is in bounds, and otherwise
the out-of-bounds memory byte `junk (i - len)`. -/
def consensus_encode (s : List Nat) (junk : Nat → Nat) : List Nat :=
  (List.range 12).map (fun i => (strBytes s).getD i (junk (i - (strBytes s).length)))

/-- `CommandString::consensus_decode`: reads a 12-byte array, then
`rawbytes.iter().filter_map(|&u| if u > 0 { Some(u as char) } else { None })`:
every non-zero byte becomes the character of the same code point, every
zero byte is dropped, wherever it occurs. -/
def consensus_decode (input : List Nat) : Except Err (List Nat × List Nat) :=
  match readBytes 12 input with
  | .error e => .error e
  | .ok (raw, rest) => .ok (raw.filter (fun u => decide (0 < u)), rest)

end CommandString

/-- Modelled from the spec (§4.1 wording, for comparison with the
source's decoder): interpret the 12 bytes by "stopping at the first zero
byte", mapping only the bytes before that terminator to characters. -/
def specTagDecode (raw : List Nat) : List Nat := raw.takeWhile (fun u => decide (0 < u))

/-- Modelled from the spec (§3 wording): the intended wire command tag,
the name's bytes left-justified and right-padded with zero bytes to 12. -/
def specTagEncode (name : List Nat) : List Nat :=
  name ++ List.replicate (12 - name.length) 0

/-! ## The envelope layer

The domain payload types (`VersionMessage`, `Address`, `Inventory`,
`GetBlocksMessage`, `GetHeadersMessage`, `Transaction`, `Block`,
`LoneBlockHeader`) and their consensus codecs live outside the provided
tree, so they are kept abstract: the development is parametric in eight
payload types and a bundle of their codecs. -/

/-- Modelled from the spec: the external consensus codecs (§6) for the
domain payload types carried by the message variants.  `serialize`
returns a `Result`, and the domain decoders return a `Result`; both are
opaque to the envelope layer.  `V` is the version-handshake payload, `A`
the address list, `I` the inventory list (shared by `inv`, `getdata` and
`notfound` exactly as in the source), `GB`/`GH` the block-range request
payloads, `T` a transaction, `B` a block, `H` the header list. -/
structure Codecs (V A I GB GH T B H : Type) where
  encV : V → Except Err (List Nat)
  decV : List Nat → Except Err V
  encA : A → Except Err (List Nat)
  decA : List Nat → Except Err A
  encI : I → Except Err (List Nat)
  decI : List Nat → Except Err I
  encGB : GB → Except Err (List Nat)
  decGB : List Nat → Except Err GB
  encGH : GH → Except Err (List Nat)
  decGH : List Nat → Except Err GH
  encT : T → Except Err (List Nat)
  decT : List Nat → Except Err T
  encB : B → Except Err (List Nat)
  decB : List Nat → Except Err B
  encH : H → Except Err (List Nat)
  decH : List Nat → Except Err H

variable {V A I GB GH T B H : Type}

/-- The `NetworkMessage` enum of the source: one constructor per wire
message kind, in source order.  `ping` and `pong` carry a `u64`,
modelled as a `Nat` (the u64 range is imposed as a side condition where
it matters). -/
inductive NetworkMessage (V A I GB GH T B H : Type) where
  | version : V → NetworkMessage V A I GB GH T B H
  | verack : NetworkMessage V A I GB GH T B H
  | addr : A → NetworkMessage V A I GB GH T B H
  | inv : I → NetworkMessage V A I GB GH T B H
  | getData : I → NetworkMessage V A I GB GH T B H
  | notFound : I → NetworkMessage V A I GB GH T B H
  | getBlocks : GB → NetworkMessage V A I GB GH T B H
  | getHeaders : GH → NetworkMessage V A I GB GH T B H
  | tx : T → NetworkMessage V A I GB GH T B H
  | block : B → NetworkMessage V A I GB GH T B H
  | headers : H → NetworkMessage V A I GB GH T B H
  | ping : Nat → NetworkMessage V A I GB GH T B H
  | pong : Nat → NetworkMessage V A I GB GH T B H

/-- The `RawNetworkMessage` struct of the source: a 4-byte magic (a
`u32`, modelled as a `Nat`) and a payload. -/
structure RawNetworkMessage (V A I GB GH T B H : Type) where
  magic : Nat
  payload : NetworkMessage V A I GB GH T B H

/-- `RawNetworkMessage::command`: the name table from variant to wire
command name, exactly the string literals of the source. -/
def RawNetworkMessage.command (m : RawNetworkMessage V A I GB GH T B H) : List Nat :=
  match m.payload with
  | .version _ => strChars "version"
  | .verack => strChars "verack"
  | .addr _ => strChars "addr"
  | .inv _ => strChars "inv"
  | .getData _ => strChars "getdata"
  | .notFound _ => strChars "notfound"
  | .getBlocks _ => strChars "getblocks"
  | .getHeaders _ => strChars "getheaders"
  | .tx _ => strChars "tx"
  | .block _ => strChars "block"
  | .headers _ => strChars "headers"
  | .ping _ => strChars "ping"
  | .pong _ => strChars "pong"

/-- The `match self.payload { … serialize(dat) … }` block of
`RawNetworkMessage::consensus_encode`: the domain serialization of the
payload (`Ok(vec![])` for `verack`; the little-endian 8 bytes of the
`u64` for `ping`/`pong`, whose serializer cannot fail). -/
def serializePayload (c : Codecs V A I GB GH T B H) :
    NetworkMessage V A I GB GH T B H → Except Err (List Nat)
  | .version d => c.encV d
  | .verack => .ok []
  | .addr d => c.encA d
  | .inv d => c.encI d
  | .getData d => c.encI d
  | .notFound d => c.encI d
  | .getBlocks d => c.encGB d
  | .getHeaders d => c.encGH d
  | .tx d => c.encT d
  | .block d => c.encB d
  | .headers d => c.encH d
  | .ping n => .ok (leBytes 8 n)
  | .pong n => .ok (leBytes 8 n)

namespace CheckedData

/-- Modelled from the spec: the framing primitive's encode direction
(§6): a 4-byte little-endian length, then the 4-byte checksum of the
raw payload, then the payload.  The checksum (first 4 bytes of a
double-hash digest, out of scope as a cryptographic primitive) is an
arbitrary function `ck` from the payload to a 32-bit value. -/
def frame (ck : List Nat → Nat) (payload : List Nat) : List Nat :=
  leBytes 4 payload.length ++ leBytes 4 (ck payload) ++ payload

/-- Modelled from the spec: the framing primitive's decode direction:
read the length, the wire checksum and that many payload bytes, then
verify the checksum, failing with `BadChecksum` on mismatch. -/
def unframe (ck : List Nat → Nat) (input : List Nat) : Except Err (List Nat × List Nat) :=
  match readBytes 4 input with
  | .error e => .error e
  | .ok (lenB, r1) =>
    match readBytes 4 r1 with
    | .error e => .error e
    | .ok (ckB, r2) =>
      match readBytes (leNat lenB) r2 with
      | .error e => .error e
      | .ok (payload, r3) =>
        if ckB = leBytes 4 (ck payload) then .ok (payload, r3) else .error .badChecksum

end CheckedData

/-- Modelled from the spec: `util::propagate_err`, which wraps a failed
domain decode with the command name whose payload failed (§7's
`PayloadDecode { command, cause }`). -/
def propagate_err (cmd : List Nat) : Except Err α → Except Err α
  | .ok a => .ok a
  | .error e => .error (.payloadDecode cmd e)

/-- Modelled from the spec: the `u64` consensus decoder used for the
`ping`/`pong` payload: 8 little-endian bytes read from the front of the
payload cursor (trailing bytes are left unread, as with the source's
in-memory cursor). -/
def decodeU64 (input : List Nat) : Except Err (Nat × List Nat) :=
  match readBytes 8 input with
  | .error e => .error e
  | .ok (bs, rest) => .ok (leNat bs, rest)

/-- The `match &cmd[..] { … }` dispatch table of
`RawNetworkMessage::consensus_decode`, in source order.  Note the
source's `"pong" => NetworkMessage::Ping(…)` entry, reproduced here. -/
def dispatch (c : Codecs V A I GB GH T B H) (cmd : List Nat) (pl : List Nat) :
    Except Err (NetworkMessage V A I GB GH T B H) :=
  if cmd = strChars "version" then
    Except.map NetworkMessage.version (propagate_err (strChars "version") (c.decV pl))
  else if cmd = strChars "verack" then .ok .verack
  else if cmd = strChars "addr" then
    Except.map NetworkMessage.addr (propagate_err (strChars "addr") (c.decA pl))
  else if cmd = strChars "inv" then
    Except.map NetworkMessage.inv (propagate_err (strChars "inv") (c.decI pl))
  else if cmd = strChars "getdata" then
    Except.map NetworkMessage.getData (propagate_err (strChars "getdata") (c.decI pl))
  else if cmd = strChars "notfound" then
    Except.map NetworkMessage.notFound (propagate_err (strChars "notfound") (c.decI pl))
  else if cmd = strChars "getblocks" then
    Except.map NetworkMessage.getBlocks (propagate_err (strChars "getblocks") (c.decGB pl))
  else if cmd = strChars "getheaders" then
    Except.map NetworkMessage.getHeaders (propagate_err (strChars "getheaders") (c.decGH pl))
  else if cmd = strChars "block" then
    Except.map NetworkMessage.block (propagate_err (strChars "block") (c.decB pl))
  else if cmd = strChars "headers" then
    Except.map NetworkMessage.headers (propagate_err (strChars "headers") (c.decH pl))
  else if cmd = strChars "ping" then
    Except.map (fun r => NetworkMessage.ping r.1) (propagate_err (strChars "ping") (decodeU64 pl))
  else if cmd = strChars "pong" then
    Except.map (fun r => NetworkMessage.ping r.1) (propagate_err (strChars "pong") (decodeU64 pl))
  else if cmd = strChars "tx" then
    Except.map NetworkMessage.tx (propagate_err (strChars "tx") (c.decT pl))
  else .error (.unrecognizedCommand cmd)

/-- `RawNetworkMessage::consensus_encode`: magic as 4 little-endian
bytes, the 12-byte command tag (with its out-of-bounds `junk` oracle),
then the framed payload.  The source calls `.unwrap()` on the domain
serialization, so a failing serializer is a panic, modelled as
`none`. -/
def RawNetworkMessage.consensus_encode (junk : Nat → Nat) (ck : List Nat → Nat)
    (c : Codecs V A I GB GH T B H) (m : RawNetworkMessage V A I GB GH T B H) :
    Option (List Nat) :=
  match serializePayload c m.payload with
  | .error _ => none
  | .ok pl =>
    some (leBytes 4 m.magic ++ CommandString.consensus_encode m.command junk ++
      CheckedData.frame ck pl)

/-- `RawNetworkMessage::consensus_decode`: read magic, command tag and
checked payload, then dispatch on the decoded command name. -/
def RawNetworkMessage.consensus_decode (ck : List Nat → Nat)
    (c : Codecs V A I GB GH T B H) (input : List Nat) :
    Except Err (RawNetworkMessage V A I GB GH T B H × List Nat) :=
  match readBytes 4 input with
  | .error e => .error e
  | .ok (mb, r1) =>
    match CommandString.consensus_decode r1 with
    | .error e => .error e
    | .ok (cmd, r2) =>
      match CheckedData.unframe ck r2 with
      | .error e => .error e
      | .ok (pl, r3) =>
        match dispatch c cmd pl with
        | .error e => .error e
        | .ok payload => .ok (⟨leNat mb, payload⟩, r3)

/-- The correction forced by the source's `"pong"` dispatch entry: what
the decoder actually reconstructs from a variant's own wire name; the
identity on every variant except `pong`, which comes back as `ping`
with the same nonce. -/
def pongToPing : NetworkMessage V A I GB GH T B H → NetworkMessage V A I GB GH T B H
  | .pong n => .ping n
  | m => m

/-- The `u64` range constraint that the Rust types impose on the
`ping`/`pong` nonce (the other variants' payloads are opaque). -/
def msgOk : NetworkMessage V A I GB GH T B H → Prop
  | .ping n => n < 2 ^ 64
  | .pong n => n < 2 ^ 64
  | _ => True

/-- Modelled from the spec: the (implicit) round-trip contract of the
external domain codecs — decoding a successful serialization returns
the serialized value. -/
def codecsRT (c : Codecs V A I GB GH T B H) : Prop :=
  (∀ x bs, c.encV x = .ok bs → c.decV bs = .ok x) ∧
  (∀ x bs, c.encA x = .ok bs → c.decA bs = .ok x) ∧
  (∀ x bs, c.encI x = .ok bs → c.decI bs = .ok x) ∧
  (∀ x bs, c.encGB x = .ok bs → c.decGB bs = .ok x) ∧
  (∀ x bs, c.encGH x = .ok bs → c.decGH bs = .ok x) ∧
  (∀ x bs, c.encT x = .ok bs → c.decT bs = .ok x) ∧
  (∀ x bs, c.encB x = .ok bs → c.decB bs = .ok x) ∧
  (∀ x bs, c.encH x = .ok bs → c.decH bs = .ok x)

/-- The thirteen wire names recognized by the dispatch table, in source
order. -/
def recognizedCommands : List (List Nat) :=
  [strChars "version", strChars "verack", strChars "addr", strChars "inv",
   strChars "getdata", strChars "notfound", strChars "getblocks", strChars "getheaders",
   strChars "block", strChars "headers", strChars "ping", strChars "pong", strChars "tx"]

/-- A whole wire frame for command name `name` and raw payload `pl`,
with zeroed out-of-bounds memory behind the name: magic, 12-byte tag,
framed payload. -/
def mkFrame (ck : List Nat → Nat) (magic : Nat) (name : String) (pl : List Nat) : List Nat :=
  leBytes 4 magic ++ CommandString.consensus_encode (strChars name) (fun _ => 0) ++
    CheckedData.frame ck pl

/-- A concrete codec bundle over trivial payload types, whose decoders
always succeed; used to instantiate the parametric theorems. -/
def unitCodecs : Codecs Unit Unit Unit Unit Unit Unit Unit Unit where
  encV := fun _ => .ok []
  decV := fun _ => .ok ()
  encA := fun _ => .ok []
  decA := fun _ => .ok ()
  encI := fun _ => .ok []
  decI := fun _ => .ok ()
  encGB := fun _ => .ok []
  decGB := fun _ => .ok ()
  encGH := fun _ => .ok []
  decGH := fun _ => .ok ()
  encT := fun _ => .ok []
  decT := fun _ => .ok ()
  encB := fun _ => .ok []
  decB := fun _ => .ok ()
  encH := fun _ => .ok []
  decH := fun _ => .ok ()

/-- A concrete codec bundle whose domain decoders all reject their
input with the same underlying cause; used to exhibit the payload
failure path. -/
def failCodecs : Codecs Unit Unit Unit Unit Unit Unit Unit Unit where
  encV := fun _ => .ok []
  decV := fun _ => .error .badChecksum
  encA := fun _ => .ok []
  decA := fun _ => .error .badChecksum
  encI := fun _ => .ok []
  decI := fun _ => .error .badChecksum
  encGB := fun _ => .ok []
  decGB := fun _ => .error .badChecksum
  encGH := fun _ => .ok []
  decGH := fun _ => .error .badChecksum
  encT := fun _ => .ok []
  decT := fun _ => .error .badChecksum
  encB := fun _ => .ok []
  decB := fun _ => .error .badChecksum
  encH := fun _ => .ok []
  decH := fun _ => .error .badChecksum

/-! ## Plumbing lemmas for the byte primitives -/

theorem readBytes_exact (xs ys : List Nat) {n : Nat} (h : xs.length = n) :
    readBytes n (xs ++ ys) = .ok (xs, ys) := by
  subst h
  unfold readBytes
  rw [if_pos (by simp)]
  rw [List.take_left, List.drop_left]

theorem readBytes_all (xs : List Nat) {n : Nat} (h : xs.length = n) :
    readBytes n xs = .ok (xs, []) := by
  subst h
  unfold readBytes
  rw [if_pos (Nat.le_refl _), List.take_length, List.drop_length]

theorem leBytes_length (w x : Nat) : (leBytes w x).length = w := by
  induction w generalizing x with
  | zero => rfl
  | succ w ih => simp [leBytes, ih]

theorem leNat_leBytes (w x : Nat) (h : x < 2 ^ (8 * w)) : leNat (leBytes w x) = x := by
  induction w generalizing x with
  | zero =>
    simp only [Nat.mul_zero, pow_zero, Nat.lt_one_iff] at h
    simp [leBytes, leNat, h]
  | succ w ih =>
    have hmul : 2 ^ (8 * (w + 1)) = 2 ^ (8 * w) * 256 := by
      rw [show 8 * (w + 1) = 8 * w + 8 by ring, pow_add]
      norm_num
    have hdiv : x / 256 < 2 ^ (8 * w) := by
      rw [hmul] at h
      omega
    simp [leBytes, leNat, ih (x / 256) hdiv]
    omega

theorem commandString_decode_append (tag rest : List Nat) (ht : tag.length = 12) :
    CommandString.consensus_decode (tag ++ rest) =
      .ok (tag.filter (fun u => decide (0 < u)), rest) := by
  unfold CommandString.consensus_decode
  rw [readBytes_exact tag rest ht]

/-- The 12-byte tag produced for a string whose UTF-8 byte sequence is
the two bytes `[x, y]`, with out-of-bounds memory `junk`. -/
theorem commandString_encode_of_two (s : List Nat) (x y : Nat) (junk : Nat → Nat)
    (h : strBytes s = [x, y]) :
    CommandString.consensus_encode s junk =
      [x, y, junk 0, junk 1, junk 2, junk 3, junk 4, junk 5, junk 6, junk 7, junk 8, junk 9] := by
  simp only [CommandString.consensus_encode, h]
  rfl

theorem commandString_encode_length (s : List Nat) (junk : Nat → Nat) :
    (CommandString.consensus_encode s junk).length = 12 := by
  simp [CommandString.consensus_encode]

/-! ## Envelope plumbing lemmas -/

theorem checkedData_unframe_frame (ck : List Nat → Nat) (pl : List Nat)
    (hpl : pl.length < 2 ^ 32) :
    CheckedData.unframe ck (CheckedData.frame ck pl) = .ok (pl, []) := by
  unfold CheckedData.frame CheckedData.unframe
  rw [List.append_assoc, readBytes_exact _ _ (leBytes_length 4 pl.length)]
  simp only
  rw [readBytes_exact _ _ (leBytes_length 4 (ck pl))]
  simp only
  rw [leNat_leBytes 4 pl.length hpl, readBytes_all pl rfl]
  simp

/-- Decoding a well-formed frame `magic ++ tag ++ frame(pl)` reaches the
dispatch table with the name decoded from `tag` and the payload `pl`. -/
theorem decode_frame (ck : List Nat → Nat) (c : Codecs V A I GB GH T B H)
    (magic : Nat) (tag pl : List Nat) (hm : magic < 2 ^ 32) (ht : tag.length = 12)
    (hpl : pl.length < 2 ^ 32) :
    RawNetworkMessage.consensus_decode ck c (leBytes 4 magic ++ tag ++ CheckedData.frame ck pl) =
      match dispatch c (tag.filter (fun u => decide (0 < u))) pl with
      | .error e => .error e
      | .ok payload => .ok (⟨magic, payload⟩, ([] : List Nat)) := by
  unfold RawNetworkMessage.consensus_decode
  rw [List.append_assoc, readBytes_exact _ _ (leBytes_length 4 magic)]
  simp only
  rw [commandString_decode_append _ _ ht]
  simp only
  rw [checkedData_unframe_frame ck pl hpl]
  simp only
  rw [leNat_leBytes 4 magic hm]

/-! ## Dispatch table lemmas (one per recognized wire name) -/

theorem dispatch_version (c : Codecs V A I GB GH T B H) (pl : List Nat) :
    dispatch c (strChars "version") pl =
      Except.map NetworkMessage.version (propagate_err (strChars "version") (c.decV pl)) := rfl

theorem dispatch_verack (c : Codecs V A I GB GH T B H) (pl : List Nat) :
    dispatch c (strChars "verack") pl = .ok .verack := rfl

theorem dispatch_addr (c : Codecs V A I GB GH T B H) (pl : List Nat) :
    dispatch c (strChars "addr") pl =
      Except.map NetworkMessage.addr (propagate_err (strChars "addr") (c.decA pl)) := rfl

theorem dispatch_inv (c : Codecs V A I GB GH T B H) (pl : List Nat) :
    dispatch c (strChars "inv") pl =
      Except.map NetworkMessage.inv (propagate_err (strChars "inv") (c.decI pl)) := rfl

theorem dispatch_getdata (c : Codecs V A I GB GH T B H) (pl : List Nat) :
    dispatch c (strChars "getdata") pl =
      Except.map NetworkMessage.getData (propagate_err (strChars "getdata") (c.decI pl)) := rfl

theorem dispatch_notfound (c : Codecs V A I GB GH T B H) (pl : List Nat) :
    dispatch c (strChars "notfound") pl =
      Except.map NetworkMessage.notFound (propagate_err (strChars "notfound") (c.decI pl)) := rfl

theorem dispatch_getblocks (c : Codecs V A I GB GH T B H) (pl : List Nat) :
    dispatch c (strChars "getblocks") pl =
      Except.map NetworkMessage.getBlocks (propagate_err (strChars "getblocks") (c.decGB pl)) := rfl

theorem dispatch_getheaders (c : Codecs V A I GB GH T B H) (pl : List Nat) :
    dispatch c (strChars "getheaders") pl =
      Except.map NetworkMessage.getHeaders
        (propagate_err (strChars "getheaders") (c.decGH pl)) := rfl

theorem dispatch_block (c : Codecs V A I GB GH T B H) (pl : List Nat) :
    dispatch c (strChars "block") pl =
      Except.map NetworkMessage.block (propagate_err (strChars "block") (c.decB pl)) := rfl

theorem dispatch_headers (c : Codecs V A I GB GH T B H) (pl : List Nat) :
    dispatch c (strChars "headers") pl =
      Except.map NetworkMessage.headers (propagate_err (strChars "headers") (c.decH pl)) := rfl

theorem dispatch_ping (c : Codecs V A I GB GH T B H) (pl : List Nat) :
    dispatch c (strChars "ping") pl =
      Except.map (fun r => NetworkMessage.ping r.1)
        (propagate_err (strChars "ping") (decodeU64 pl)) := rfl

/-- The mis-wired entry of the source: the wire name `"pong"` also
constructs `NetworkMessage.ping`. -/
theorem dispatch_pong (c : Codecs V A I GB GH T B H) (pl : List Nat) :
    dispatch c (strChars "pong") pl =
      Except.map (fun r => NetworkMessage.ping r.1)
        (propagate_err (strChars "pong") (decodeU64 pl)) := rfl

theorem dispatch_tx (c : Codecs V A I GB GH T B H) (pl : List Nat) :
    dispatch c (strChars "tx") pl =
      Except.map NetworkMessage.tx (propagate_err (strChars "tx") (c.decT pl)) := rfl

theorem decodeU64_leBytes (n : Nat) (hn : n < 2 ^ 64) :
    decodeU64 (leBytes 8 n) = .ok (n, []) := by
  unfold decodeU64
  rw [readBytes_all _ (leBytes_length 8 n)]
  simp only
  rw [leNat_leBytes 8 n hn]

theorem decodeU64_short (pl : List Nat) (h : pl.length < 8) :
    decodeU64 pl = .error .truncated := by
  unfold decodeU64 readBytes
  rw [if_neg (by omega)]

/-- The `u64` decoder only rejects inputs shorter than 8 bytes. -/
theorem decodeU64_error_length (pl : List Nat) (e : Err) (h : decodeU64 pl = .error e) :
    pl.length < 8 := by
  by_contra hge
  push_neg at hge
  unfold decodeU64 readBytes at h
  rw [if_pos hge] at h
  simp at h

/-- Decoding a whole frame built by `mkFrame` reaches the dispatch
table at `name`, provided the tag for `name` decodes back to `name`
(true for every zero-free ASCII name of at most 12 bytes; discharged by
`decide` at each concrete name). -/
theorem decode_mkFrame (ck : List Nat → Nat) (c : Codecs V A I GB GH T B H)
    (magic : Nat) (name : String) (pl : List Nat) (hm : magic < 2 ^ 32)
    (hpl : pl.length < 2 ^ 32)
    (hf : (CommandString.consensus_encode (strChars name) (fun _ => 0)).filter
        (fun u => decide (0 < u)) = strChars name) :
    RawNetworkMessage.consensus_decode ck c (mkFrame ck magic name pl) =
      match dispatch c (strChars name) pl with
      | .error e => .error e
      | .ok payload => .ok (⟨magic, payload⟩, ([] : List Nat)) := by
  unfold mkFrame
  rw [decode_frame ck c magic _ pl hm (commandString_encode_length _ _) hpl, hf]

/-! ## Claim C9: truncated command tags -/

/-- Claim C9: decoding a command tag from an input of fewer than 12
bytes fails with `Truncated` rather than succeeding or panicking. -/
theorem c9_truncated (input : List Nat) (h : input.length < 12) :
    CommandString.consensus_decode input = .error .truncated := by
  unfold CommandString.consensus_decode readBytes
  rw [if_neg (by omega)]

/-- Witness for C9 at the 11-byte input of the source's own test. -/
theorem c9_truncated_witness :
    CommandString.consensus_decode [0x41, 0x6e, 0x64, 0x72, 0x65, 0x77, 0, 0, 0, 0, 0] =
      .error .truncated :=
  c9_truncated [0x41, 0x6e, 0x64, 0x72, 0x65, 0x77, 0, 0, 0, 0, 0] (by decide)

/-! ## Claim C3: what the tag decoder does with zero bytes -/

/-- Counterexample to claim C3: on the tag `41 00 42 00…00` the source's
decoder returns the characters `[0x41, 0x42]`, while the claimed
"stop at the first zero byte" reading returns `[0x41]`; the non-zero
byte `0x42` after the first zero byte is not ignored. -/
theorem c3_counterexample :
    CommandString.consensus_decode ([0x41, 0, 0x42] ++ List.replicate 9 0) =
        .ok ([0x41, 0x42], []) ∧
      specTagDecode ([0x41, 0, 0x42] ++ List.replicate 9 0) = [0x41] ∧
      ([0x41, 0x42] : List Nat) ≠ [0x41] :=
  ⟨rfl, rfl, by decide⟩

/-- Claim C3 as amended: the decoder drops every zero byte and keeps
every non-zero byte, wherever it occurs; for a 12-byte tag made of a
zero-free prefix `pre`, a zero byte, and a suffix `post`, the decoded
name is `pre` followed by the non-zero bytes of `post`. -/
theorem c3_amended (pre post rest : List Nat) (hpre : ∀ x ∈ pre, 0 < x)
    (hlen : pre.length + 1 + post.length = 12) :
    CommandString.consensus_decode (pre ++ 0 :: post ++ rest) =
      .ok (pre ++ post.filter (fun u => decide (0 < u)), rest) := by
  have hsplit : pre ++ 0 :: post ++ rest = (pre ++ 0 :: post) ++ rest := by simp
  have hlen2 : (pre ++ 0 :: post).length = 12 := by
    simp only [List.length_append, List.length_cons]
    omega
  have hpre2 : pre.filter (fun u => decide (0 < u)) = pre := by
    apply List.filter_eq_self.mpr
    intro a ha
    simpa using hpre a ha
  rw [hsplit, commandString_decode_append _ _ hlen2, List.filter_append, hpre2]
  rfl

/-- Witness for C3's amended claim on the counterexample tag. -/
theorem c3_amended_witness :
    CommandString.consensus_decode ([0x41] ++ 0 :: (0x42 :: List.replicate 9 0) ++ []) =
      .ok ([0x41] ++ (0x42 :: List.replicate 9 0).filter (fun u => decide (0 < u)), []) :=
  c3_amended [0x41] (0x42 :: List.replicate 9 0) [] (by decide) (by decide)

/-! ## Claim C4: the encoder's unchecked fixed-width copy -/

/-- Claim C4 fails on the code: encoding the 6-byte name `"Andrew"`
copies 12 bytes from its 6-byte buffer, so the last 6 output bytes are
whatever sits in memory after the name (here modelled as `0x01` bytes),
not the zero padding the claim (and the source's own
`serialize_commandstring_test`) requires. -/
theorem c4_oob_copy_eval :
    CommandString.consensus_encode (strChars "Andrew") (fun _ => 1) =
        [0x41, 0x6e, 0x64, 0x72, 0x65, 0x77, 1, 1, 1, 1, 1, 1] ∧
      CommandString.consensus_encode (strChars "Andrew") (fun _ => 1) ≠
        specTagEncode (strChars "Andrew") := by
  constructor
  · rfl
  · decide

/-! ## Claim C8: command tag round trip -/

/-- Claim C8 fails on the code for the same reason as C4: with non-zero
bytes after the name's buffer, `decode(encode("Andrew"))` yields
`"Andrew"` followed by six junk characters, not `"Andrew"`. -/
theorem c8_roundtrip_broken_eval :
    CommandString.consensus_decode
        (CommandString.consensus_encode (strChars "Andrew") (fun _ => 1)) =
        .ok (strChars "Andrew" ++ [1, 1, 1, 1, 1, 1], []) ∧
      strChars "Andrew" ++ [1, 1, 1, 1, 1, 1] ≠ strChars "Andrew" := by
  constructor
  · rfl
  · decide

/-! ## Claim C5: non-ASCII bytes and re-encoding -/

/-- Counterexample to claim C5: the tag `ff 00…00` decodes (without any
charset validation) to the single character `U+00FF`, but re-encoding
that name emits its UTF-8 bytes `c3 bf`, not the original byte `ff`:
re-encoding does not reproduce the original bytes. -/
theorem c5_counterexample :
    CommandString.consensus_decode (0xFF :: List.replicate 11 0) =
        .ok ([0xFF], []) ∧
      CommandString.consensus_encode [0xFF] (fun _ => 0) =
        [0xC3, 0xBF] ++ List.replicate 10 0 ∧
      CommandString.consensus_encode [0xFF] (fun _ => 0) ≠
        0xFF :: List.replicate 11 0 := by
  refine ⟨rfl, rfl, ?_⟩
  decide

/-- Claim C5 as amended: a byte `b` outside 7-bit ASCII is still passed
through without validation, becoming the character of code point `b`,
but the name's `String` stores it as the two UTF-8 bytes
`[0xC0 + b / 0x40, 0x80 + b % 0x40]`, so re-encoding the decoded name
does not reproduce the original tag bytes (the tag's second byte is 0,
the re-encoding's second byte is at least 0x80). -/
theorem c5_amended (b : Nat) (h1 : 0x80 ≤ b) (h2 : b < 0x100) :
    CommandString.consensus_decode (b :: List.replicate 11 0) = .ok ([b], []) ∧
      strBytes [b] = [0xC0 + b / 0x40, 0x80 + b % 0x40] ∧
      CommandString.consensus_encode [b] (fun _ => 0) ≠
        b :: List.replicate 11 0 := by
  have hb : (0 : Nat) < b := by omega
  have hsb : strBytes [b] = [0xC0 + b / 0x40, 0x80 + b % 0x40] := by
    have hn : ¬ b < 0x80 := by omega
    have h8 : b < 0x800 := by omega
    simp [strBytes, utf8Char, hn, h8]
  refine ⟨?_, hsb, ?_⟩
  · have hr := readBytes_all (b :: List.replicate 11 0) (n := 12) rfl
    simp only [CommandString.consensus_decode, hr]
    rw [List.filter_cons, if_pos (decide_eq_true hb)]
    rfl
  · rw [commandString_encode_of_two [b] _ _ _ hsb]
    intro heq
    have h1' := congrArg (fun l => l.getD 1 0) heq
    simp only [List.getD_cons_succ, List.getD_cons_zero] at h1'
    rw [show (List.replicate 11 (0 : Nat)).getD 0 0 = 0 from rfl] at h1'
    omega

/-- Witness for C5's amended claim at the byte `0xFF`. -/
theorem c5_amended_witness :
    CommandString.consensus_decode (0xFF :: List.replicate 11 0) =
        .ok ([0xFF], []) ∧
      strBytes [0xFF] = [0xC0 + 0xFF / 0x40, 0x80 + 0xFF % 0x40] ∧
      CommandString.consensus_encode [0xFF] (fun _ => 0) ≠
        0xFF :: List.replicate 11 0 :=
  c5_amended 0xFF (by decide) (by decide)

/-! ## Claim C10: encoding unwraps the domain serializer -/

/-- Claim C10: envelope encoding returns bytes exactly when the domain
serializer of the payload succeeds; a failing domain serializer makes
the `.unwrap()` panic (modelled `none`) instead of returning a
structured error. -/
theorem c10_encode_unwraps (junk : Nat → Nat) (ck : List Nat → Nat)
    (c : Codecs V A I GB GH T B H) (m : RawNetworkMessage V A I GB GH T B H) :
    RawNetworkMessage.consensus_encode junk ck c m = none ↔
      ∃ e, serializePayload c m.payload = .error e := by
  unfold RawNetworkMessage.consensus_encode
  cases h : serializePayload c m.payload with
  | ok pl => simp [h]
  | error e => simp [h]

/-! ## Claim C2: the mis-wired "pong" dispatch entry -/

/-- Claim C2: a frame whose command tag decodes to the name `"pong"`
is decoded by applying the `u64` payload decoder and wrapping the
result in the `Ping` constructor — the mis-wired dispatch entry of the
source, reproduced exactly. -/
theorem c2_pong_decodes_to_ping (ck : List Nat → Nat) (c : Codecs V A I GB GH T B H)
    (magic n : Nat) (hm : magic < 2 ^ 32) (hn : n < 2 ^ 64) :
    RawNetworkMessage.consensus_decode ck c (mkFrame ck magic "pong" (leBytes 8 n)) =
      .ok (⟨magic, .ping n⟩, []) := by
  rw [decode_mkFrame ck c magic "pong" _ hm
    (by rw [leBytes_length]; norm_num) (by decide)]
  rw [dispatch_pong, decodeU64_leBytes n hn]
  rfl

/-- Witness for C2 at the source's own ping test vector values
(magic `0xd9b4bef9`, nonce 100). -/
theorem c2_pong_decodes_to_ping_witness :
    RawNetworkMessage.consensus_decode (fun _ => 0) unitCodecs
        (mkFrame (fun _ => 0) 0xd9b4bef9 "pong" (leBytes 8 100)) =
      .ok (⟨0xd9b4bef9, .ping 100⟩, []) :=
  c2_pong_decodes_to_ping (fun _ => 0) unitCodecs 0xd9b4bef9 100 (by decide) (by decide)

/-! ## Claim C7: unrecognized commands -/

/-- Claim C7: a frame whose 12-byte tag decodes to a name outside the
dispatch table fails with `UnrecognizedCommand` carrying that decoded
name. -/
theorem c7_unrecognized (ck : List Nat → Nat) (c : Codecs V A I GB GH T B H)
    (magic : Nat) (tag pl : List Nat) (hm : magic < 2 ^ 32) (ht : tag.length = 12)
    (hpl : pl.length < 2 ^ 32)
    (hcmd : tag.filter (fun u => decide (0 < u)) ∉ recognizedCommands) :
    RawNetworkMessage.consensus_decode ck c
        (leBytes 4 magic ++ tag ++ CheckedData.frame ck pl) =
      .error (.unrecognizedCommand (tag.filter (fun u => decide (0 < u)))) := by
  rw [decode_frame ck c magic tag pl hm ht hpl]
  simp only [recognizedCommands, List.mem_cons, List.not_mem_nil, or_false] at hcmd
  push_neg at hcmd
  obtain ⟨hq1, hq2, hq3, hq4, hq5, hq6, hq7, hq8, hq9, hq10, hq11, hq12, hq13⟩ := hcmd
  rw [dispatch, if_neg hq1, if_neg hq2, if_neg hq3, if_neg hq4, if_neg hq5, if_neg hq6,
    if_neg hq7, if_neg hq8, if_neg hq9, if_neg hq10, if_neg hq11, if_neg hq12, if_neg hq13]

/-- Witness for C7 at the unknown name `"booga"`. -/
theorem c7_unrecognized_witness :
    RawNetworkMessage.consensus_decode (fun _ => 0) unitCodecs
        (leBytes 4 0 ++ ([0x62, 0x6f, 0x6f, 0x67, 0x61] ++ List.replicate 7 0) ++
          CheckedData.frame (fun _ => 0) []) =
      .error (.unrecognizedCommand
        (([0x62, 0x6f, 0x6f, 0x67, 0x61] ++ List.replicate 7 0).filter
          (fun u => decide (0 < u)))) :=
  c7_unrecognized (fun _ => 0) unitCodecs 0
    ([0x62, 0x6f, 0x6f, 0x67, 0x61] ++ List.replicate 7 0) [] (by decide) (by decide)
    (by decide) (by decide)

/-! ## Claim C6: payload failure attribution -/

/-- Claim C6: for every dispatch entry that invokes a payload decoder,
every payload (fitting the 4-byte length field) that is rejected by
that entry's own domain decoder makes the whole decode fail with
`PayloadDecode` carrying both that entry's command name and the
underlying cause (`verack` invokes none; `ping`/`pong` use the `u64`
decoder, so their cause is whatever it raised). -/
theorem c6_payload_error_attribution (ck : List Nat → Nat)
    (c : Codecs V A I GB GH T B H) (magic : Nat) (hm : magic < 2 ^ 32) :
    (∀ pl e, pl.length < 2 ^ 32 → c.decV pl = .error e →
      RawNetworkMessage.consensus_decode ck c (mkFrame ck magic "version" pl) =
        .error (.payloadDecode (strChars "version") e)) ∧
      (∀ pl e, pl.length < 2 ^ 32 → c.decA pl = .error e →
        RawNetworkMessage.consensus_decode ck c (mkFrame ck magic "addr" pl) =
          .error (.payloadDecode (strChars "addr") e)) ∧
      (∀ pl e, pl.length < 2 ^ 32 → c.decI pl = .error e →
        RawNetworkMessage.consensus_decode ck c (mkFrame ck magic "inv" pl) =
          .error (.payloadDecode (strChars "inv") e)) ∧
      (∀ pl e, pl.length < 2 ^ 32 → c.decI pl = .error e →
        RawNetworkMessage.consensus_decode ck c (mkFrame ck magic "getdata" pl) =
          .error (.payloadDecode (strChars "getdata") e)) ∧
      (∀ pl e, pl.length < 2 ^ 32 → c.decI pl = .error e →
        RawNetworkMessage.consensus_decode ck c (mkFrame ck magic "notfound" pl) =
          .error (.payloadDecode (strChars "notfound") e)) ∧
      (∀ pl e, pl.length < 2 ^ 32 → c.decGB pl = .error e →
        RawNetworkMessage.consensus_decode ck c (mkFrame ck magic "getblocks" pl) =
          .error (.payloadDecode (strChars "getblocks") e)) ∧
      (∀ pl e, pl.length < 2 ^ 32 → c.decGH pl = .error e →
        RawNetworkMessage.consensus_decode ck c (mkFrame ck magic "getheaders" pl) =
          .error (.payloadDecode (strChars "getheaders") e)) ∧
      (∀ pl e, pl.length < 2 ^ 32 → c.decB pl = .error e →
        RawNetworkMessage.consensus_decode ck c (mkFrame ck magic "block" pl) =
          .error (.payloadDecode (strChars "block") e)) ∧
      (∀ pl e, pl.length < 2 ^ 32 → c.decH pl = .error e →
        RawNetworkMessage.consensus_decode ck c (mkFrame ck magic "headers" pl) =
          .error (.payloadDecode (strChars "headers") e)) ∧
      (∀ pl e, pl.length < 2 ^ 32 → c.decT pl = .error e →
        RawNetworkMessage.consensus_decode ck c (mkFrame ck magic "tx" pl) =
          .error (.payloadDecode (strChars "tx") e)) ∧
      (∀ pl e, decodeU64 pl = .error e →
        RawNetworkMessage.consensus_decode ck c (mkFrame ck magic "ping" pl) =
          .error (.payloadDecode (strChars "ping") e)) ∧
      (∀ pl e, decodeU64 pl = .error e →
        RawNetworkMessage.consensus_decode ck c (mkFrame ck magic "pong" pl) =
          .error (.payloadDecode (strChars "pong") e)) := by
  refine ⟨?_, ?_, ?_, ?_, ?_, ?_, ?_, ?_, ?_, ?_, ?_, ?_⟩
  · intro pl e hpl hdec
    rw [decode_mkFrame ck c magic "version" pl hm hpl (by decide), dispatch_version, hdec]
    rfl
  · intro pl e hpl hdec
    rw [decode_mkFrame ck c magic "addr" pl hm hpl (by decide), dispatch_addr, hdec]
    rfl
  · intro pl e hpl hdec
    rw [decode_mkFrame ck c magic "inv" pl hm hpl (by decide), dispatch_inv, hdec]
    rfl
  · intro pl e hpl hdec
    rw [decode_mkFrame ck c magic "getdata" pl hm hpl (by decide), dispatch_getdata, hdec]
    rfl
  · intro pl e hpl hdec
    rw [decode_mkFrame ck c magic "notfound" pl hm hpl (by decide), dispatch_notfound, hdec]
    rfl
  · intro pl e hpl hdec
    rw [decode_mkFrame ck c magic "getblocks" pl hm hpl (by decide), dispatch_getblocks, hdec]
    rfl
  · intro pl e hpl hdec
    rw [decode_mkFrame ck c magic "getheaders" pl hm hpl (by decide), dispatch_getheaders, hdec]
    rfl
  · intro pl e hpl hdec
    rw [decode_mkFrame ck c magic "block" pl hm hpl (by decide), dispatch_block, hdec]
    rfl
  · intro pl e hpl hdec
    rw [decode_mkFrame ck c magic "headers" pl hm hpl (by decide), dispatch_headers, hdec]
    rfl
  · intro pl e hpl hdec
    rw [decode_mkFrame ck c magic "tx" pl hm hpl (by decide), dispatch_tx, hdec]
    rfl
  · intro pl e hdec
    have hpl : pl.length < 2 ^ 32 :=
      Nat.lt_trans (decodeU64_error_length pl e hdec) (by norm_num)
    rw [decode_mkFrame ck c magic "ping" pl hm hpl (by decide), dispatch_ping, hdec]
    rfl
  · intro pl e hdec
    have hpl : pl.length < 2 ^ 32 :=
      Nat.lt_trans (decodeU64_error_length pl e hdec) (by norm_num)
    rw [decode_mkFrame ck c magic "pong" pl hm hpl (by decide), dispatch_pong, hdec]
    rfl

/-- Witness for C6: each command's conjunct instantiated with the
all-rejecting codec bundle on the empty payload (which the `u64`
decoder also rejects, with `Truncated`). -/
theorem c6_payload_error_attribution_witness :
    (RawNetworkMessage.consensus_decode (fun _ => 0) failCodecs
        (mkFrame (fun _ => 0) 0 "version" []) =
        .error (.payloadDecode (strChars "version") .badChecksum)) ∧
      (RawNetworkMessage.consensus_decode (fun _ => 0) failCodecs
        (mkFrame (fun _ => 0) 0 "addr" []) =
        .error (.payloadDecode (strChars "addr") .badChecksum)) ∧
      (RawNetworkMessage.consensus_decode (fun _ => 0) failCodecs
        (mkFrame (fun _ => 0) 0 "inv" []) =
        .error (.payloadDecode (strChars "inv") .badChecksum)) ∧
      (RawNetworkMessage.consensus_decode (fun _ => 0) failCodecs
        (mkFrame (fun _ => 0) 0 "getdata" []) =
        .error (.payloadDecode (strChars "getdata") .badChecksum)) ∧
      (RawNetworkMessage.consensus_decode (fun _ => 0) failCodecs
        (mkFrame (fun _ => 0) 0 "notfound" []) =
        .error (.payloadDecode (strChars "notfound") .badChecksum)) ∧
      (RawNetworkMessage.consensus_decode (fun _ => 0) failCodecs
        (mkFrame (fun _ => 0) 0 "getblocks" []) =
        .error (.payloadDecode (strChars "getblocks") .badChecksum)) ∧
      (RawNetworkMessage.consensus_decode (fun _ => 0) failCodecs
        (mkFrame (fun _ => 0) 0 "getheaders" []) =
        .error (.payloadDecode (strChars "getheaders") .badChecksum)) ∧
      (RawNetworkMessage.consensus_decode (fun _ => 0) failCodecs
        (mkFrame (fun _ => 0) 0 "block" []) =
        .error (.payloadDecode (strChars "block") .badChecksum)) ∧
      (RawNetworkMessage.consensus_decode (fun _ => 0) failCodecs
        (mkFrame (fun _ => 0) 0 "headers" []) =
        .error (.payloadDecode (strChars "headers") .badChecksum)) ∧
      (RawNetworkMessage.consensus_decode (fun _ => 0) failCodecs
        (mkFrame (fun _ => 0) 0 "tx" []) =
        .error (.payloadDecode (strChars "tx") .badChecksum)) ∧
      (RawNetworkMessage.consensus_decode (fun _ => 0) failCodecs
        (mkFrame (fun _ => 0) 0 "ping" []) =
        .error (.payloadDecode (strChars "ping") Err.truncated)) ∧
      (RawNetworkMessage.consensus_decode (fun _ => 0) failCodecs
        (mkFrame (fun _ => 0) 0 "pong" []) =
        .error (.payloadDecode (strChars "pong") Err.truncated)) := by
  obtain ⟨k1, k2, k3, k4, k5, k6, k7, k8, k9, k10, k11, k12⟩ :=
    c6_payload_error_attribution (fun _ => 0) failCodecs 0 (by decide)
  exact ⟨k1 [] .badChecksum (by decide) rfl, k2 [] .badChecksum (by decide) rfl,
    k3 [] .badChecksum (by decide) rfl, k4 [] .badChecksum (by decide) rfl,
    k5 [] .badChecksum (by decide) rfl, k6 [] .badChecksum (by decide) rfl,
    k7 [] .badChecksum (by decide) rfl, k8 [] .badChecksum (by decide) rfl,
    k9 [] .badChecksum (by decide) rfl, k10 [] .badChecksum (by decide) rfl,
    k11 [] .truncated rfl, k12 [] .truncated rfl⟩

/-! ## Claim C1: envelope round trip -/

/-- The domain-codec round-trip contract holds for the trivial codec
bundle. -/
theorem unitCodecs_rt : codecsRT unitCodecs := by
  refine ⟨?_, ?_, ?_, ?_, ?_, ?_, ?_, ?_⟩ <;> exact fun x bs hok => rfl

/-- Counterexample to claim C1: for the `Pong` variant the round trip
fails — `decode(encode(Envelope{0, Pong(5)}))` returns
`Envelope{0, Ping(5)}`, because the dispatch entry for the wire name
`"pong"` constructs `Ping`. -/
theorem c1_counterexample :
    (RawNetworkMessage.consensus_encode (fun _ => 0) (fun _ => 0) unitCodecs
        ⟨0, .pong 5⟩).map (RawNetworkMessage.consensus_decode (fun _ => 0) unitCodecs) =
        some (.ok (⟨0, .ping 5⟩, [])) ∧
      (NetworkMessage.ping 5 : NetworkMessage Unit Unit Unit Unit Unit Unit Unit Unit) ≠
        NetworkMessage.pong 5 :=
  ⟨rfl, fun h => NetworkMessage.noConfusion h⟩

/-- Claim C1 as amended: provided the memory read out of bounds by the
tag encoder is zero, the envelope magic is a `u32` value, the
`ping`/`pong` nonce is a `u64` value, the serialized payload fits the
4-byte length field, and the external domain codecs round-trip,
decoding the encoding of `Envelope{magic, p}` consumes the whole frame
and returns `Envelope{magic, p}` for every variant except `Pong`,
which returns as `Ping` with the same nonce (`pongToPing`). -/
theorem c1_round_trip_amended (ck : List Nat → Nat) (c : Codecs V A I GB GH T B H)
    (magic : Nat) (p : NetworkMessage V A I GB GH T B H) (pl : List Nat)
    (hser : serializePayload c p = .ok pl) (hpl : pl.length < 2 ^ 32)
    (hm : magic < 2 ^ 32) (hok : msgOk p) (hrt : codecsRT c) :
    (RawNetworkMessage.consensus_encode (fun _ => 0) ck c ⟨magic, p⟩).map
        (RawNetworkMessage.consensus_decode ck c) =
      some (.ok (⟨magic, pongToPing p⟩, [])) := by
  obtain ⟨rtV, rtA, rtI, rtGB, rtGH, rtT, rtB, rtH⟩ := hrt
  cases p with
  | version d =>
    have hd : c.decV pl = .ok d := rtV d pl hser
    simp only [RawNetworkMessage.consensus_encode, RawNetworkMessage.command, hser,
      Option.map_some']
    congr 1
    rw [decode_frame ck c magic _ pl hm (commandString_encode_length _ _) hpl]
    rw [show (CommandString.consensus_encode (strChars "version") (fun _ => 0)).filter
          (fun u => decide (0 < u)) = strChars "version" from by decide]
    rw [dispatch_version, hd]
    rfl
  | verack =>
    simp only [RawNetworkMessage.consensus_encode, RawNetworkMessage.command, hser,
      Option.map_some']
    congr 1
    rw [decode_frame ck c magic _ pl hm (commandString_encode_length _ _) hpl]
    rw [show (CommandString.consensus_encode (strChars "verack") (fun _ => 0)).filter
          (fun u => decide (0 < u)) = strChars "verack" from by decide]
    rw [dispatch_verack]
    rfl
  | addr d =>
    have hd : c.decA pl = .ok d := rtA d pl hser
    simp only [RawNetworkMessage.consensus_encode, RawNetworkMessage.command, hser,
      Option.map_some']
    congr 1
    rw [decode_frame ck c magic _ pl hm (commandString_encode_length _ _) hpl]
    rw [show (CommandString.consensus_encode (strChars "addr") (fun _ => 0)).filter
          (fun u => decide (0 < u)) = strChars "addr" from by decide]
    rw [dispatch_addr, hd]
    rfl
  | inv d =>
    have hd : c.decI pl = .ok d := rtI d pl hser
    simp only [RawNetworkMessage.consensus_encode, RawNetworkMessage.command, hser,
      Option.map_some']
    congr 1
    rw [decode_frame ck c magic _ pl hm (commandString_encode_length _ _) hpl]
    rw [show (CommandString.consensus_encode (strChars "inv") (fun _ => 0)).filter
          (fun u => decide (0 < u)) = strChars "inv" from by decide]
    rw [dispatch_inv, hd]
    rfl
  | getData d =>
    have hd : c.decI pl = .ok d := rtI d pl hser
    simp only [RawNetworkMessage.consensus_encode, RawNetworkMessage.command, hser,
      Option.map_some']
    congr 1
    rw [decode_frame ck c magic _ pl hm (commandString_encode_length _ _) hpl]
    rw [show (CommandString.consensus_encode (strChars "getdata") (fun _ => 0)).filter
          (fun u => decide (0 < u)) = strChars "getdata" from by decide]
    rw [dispatch_getdata, hd]
    rfl
  | notFound d =>
    have hd : c.decI pl = .ok d := rtI d pl hser
    simp only [RawNetworkMessage.consensus_encode, RawNetworkMessage.command, hser,
      Option.map_some']
    congr 1
    rw [decode_frame ck c magic _ pl hm (commandString_encode_length _ _) hpl]
    rw [show (CommandString.consensus_encode (strChars "notfound") (fun _ => 0)).filter
          (fun u => decide (0 < u)) = strChars "notfound" from by decide]
    rw [dispatch_notfound, hd]
    rfl
  | getBlocks d =>
    have hd : c.decGB pl = .ok d := rtGB d pl hser
    simp only [RawNetworkMessage.consensus_encode, RawNetworkMessage.command, hser,
      Option.map_some']
    congr 1
    rw [decode_frame ck c magic _ pl hm (commandString_encode_length _ _) hpl]
    rw [show (CommandString.consensus_encode (strChars "getblocks") (fun _ => 0)).filter
          (fun u => decide (0 < u)) = strChars "getblocks" from by decide]
    rw [dispatch_getblocks, hd]
    rfl
  | getHeaders d =>
    have hd : c.decGH pl = .ok d := rtGH d pl hser
    simp only [RawNetworkMessage.consensus_encode, RawNetworkMessage.command, hser,
      Option.map_some']
    congr 1
    rw [decode_frame ck c magic _ pl hm (commandString_encode_length _ _) hpl]
    rw [show (CommandString.consensus_encode (strChars "getheaders") (fun _ => 0)).filter
          (fun u => decide (0 < u)) = strChars "getheaders" from by decide]
    rw [dispatch_getheaders, hd]
    rfl
  | tx d =>
    have hd : c.decT pl = .ok d := rtT d pl hser
    simp only [RawNetworkMessage.consensus_encode, RawNetworkMessage.command, hser,
      Option.map_some']
    congr 1
    rw [decode_frame ck c magic _ pl hm (commandString_encode_length _ _) hpl]
    rw [show (CommandString.consensus_encode (strChars "tx") (fun _ => 0)).filter
          (fun u => decide (0 < u)) = strChars "tx" from by decide]
    rw [dispatch_tx, hd]
    rfl
  | block d =>
    have hd : c.decB pl = .ok d := rtB d pl hser
    simp only [RawNetworkMessage.consensus_encode, RawNetworkMessage.command, hser,
      Option.map_some']
    congr 1
    rw [decode_frame ck c magic _ pl hm (commandString_encode_length _ _) hpl]
    rw [show (CommandString.consensus_encode (strChars "block") (fun _ => 0)).filter
          (fun u => decide (0 < u)) = strChars "block" from by decide]
    rw [dispatch_block, hd]
    rfl
  | headers d =>
    have hd : c.decH pl = .ok d := rtH d pl hser
    simp only [RawNetworkMessage.consensus_encode, RawNetworkMessage.command, hser,
      Option.map_some']
    congr 1
    rw [decode_frame ck c magic _ pl hm (commandString_encode_length _ _) hpl]
    rw [show (CommandString.consensus_encode (strChars "headers") (fun _ => 0)).filter
          (fun u => decide (0 < u)) = strChars "headers" from by decide]
    rw [dispatch_headers, hd]
    rfl
  | ping n =>
    simp only [serializePayload] at hser
    injection hser with hser8
    subst hser8
    simp only [RawNetworkMessage.consensus_encode, RawNetworkMessage.command, serializePayload,
      Option.map_some']
    congr 1
    rw [decode_frame ck c magic _ _ hm (commandString_encode_length _ _) hpl]
    rw [show (CommandString.consensus_encode (strChars "ping") (fun _ => 0)).filter
          (fun u => decide (0 < u)) = strChars "ping" from by decide]
    rw [dispatch_ping, decodeU64_leBytes n hok]
    rfl
  | pong n =>
    simp only [serializePayload] at hser
    injection hser with hser8
    subst hser8
    simp only [RawNetworkMessage.consensus_encode, RawNetworkMessage.command, serializePayload,
      Option.map_some']
    congr 1
    rw [decode_frame ck c magic _ _ hm (commandString_encode_length _ _) hpl]
    rw [show (CommandString.consensus_encode (strChars "pong") (fun _ => 0)).filter
          (fun u => decide (0 < u)) = strChars "pong" from by decide]
    rw [dispatch_pong, decodeU64_leBytes n hok]
    rfl

/-- Witness for C1's amended claim at `Envelope{0, Pong(5)}` with the
trivial codec bundle. -/
theorem c1_round_trip_amended_witness :
    (RawNetworkMessage.consensus_encode (fun _ => 0) (fun _ => 0) unitCodecs
        ⟨0, .pong 5⟩).map (RawNetworkMessage.consensus_decode (fun _ => 0) unitCodecs) =
      some (.ok (⟨0, pongToPing (.pong 5)⟩, [])) :=
  c1_round_trip_amended (fun _ => 0) unitCodecs 0 (.pong 5) (leBytes 8 5) rfl
    (by decide) (by decide) (by decide : (5 : Nat) < 2 ^ 64) unitCodecs_rt
